import Mathlib

/- Verification of the napari-language-packs localization tooling: a shallow
   embedding of scripts/update_catalogs.py and of the cookiecutter hook
   template/hooks/pre_gen_project.py, with theorems about the translation-config
   synchronizer, the repository mirror updater, the catalog extractor, the run
   orchestrator, and the locale validation hook. External subprocess calls
   (git, pybabel) and file writes are modelled as explicit operation traces. -/

/-- Lexicographic comparison of char lists by code point; this is the order
Python uses to compare strings, hence the order of Python's sorted(). -/
def charListLe : List Char → List Char → Bool
  | [], _ => true
  | _ :: _, [] => false
  | a :: as, b :: bs => if a < b then true else if a = b then charListLe as bs else false

/-- Order on strings realised by Python's sorted(): code-point lexicographic. -/
def strLe (a b : String) : Prop := charListLe a.data b.data = true

instance : DecidableRel strLe := fun a b => by unfold strLe; infer_instance

/-- Model of Python's sorted() on a list of strings (the sort is over a dict's
keys in the script, so duplicates never occur; any comparison sort agrees). -/
def pySorted (l : List String) : List String := l.insertionSort strLe

/-- Model of Python's str.replace for a single-character pattern and a
single-character replacement, as in pkg_name.replace("-", "_"). -/
def pyReplaceChar (old new : Char) (s : String) : String :=
  ⟨s.data.map fun c => if c = old then new else c⟩

/-- One entry of the crowdin.yml files section: a source/translation path pair.
Mirrors one dict built by update_crowdin_config in scripts/update_catalogs.py. -/
structure FileEntry where
  source : String
  translation : String
deriving DecidableEq

/-- The fixed entry for the root package, emitted first by
update_crowdin_config (scripts/update_catalogs.py lines 69-76). -/
def napariEntry : FileEntry :=
  { source := "/napari/locale/napari.pot"
    translation := "/napari/locale/%locale_with_underscore%/LC_MESSAGES/%file_name%.po" }

/-- The files-section entry built for a non-root package inside the loop of
update_crowdin_config (scripts/update_catalogs.py lines 77-87): the package
name has hyphens replaced by underscores before being spliced into the paths. -/
def pluginEntry (pkg_name : String) : FileEntry :=
  let pkg_name_norm := pyReplaceChar '-' '_' pkg_name
  { source := "/plugins/" ++ pkg_name_norm ++ "/locale/" ++ pkg_name_norm ++ ".pot"
    translation := "/plugins/" ++ pkg_name_norm ++ "/locale" ++
      "/%locale_with_underscore%/LC_MESSAGES/%file_name%.po" }

/-- The files list built by update_crowdin_config from the repository map's
package names: the napari entry, then one pluginEntry per remaining package,
iterating the names in sorted order and skipping "napari". -/
def computePackages (keys : List String) : List FileEntry :=
  napariEntry :: ((pySorted keys).filter (fun k => k != "napari")).map pluginEntry

/-- The crowdin.yml document: the files section plus every other top-level
section of the YAML mapping, modelled as an association list. The script reads
crowdin_data["files"] (so the section must exist) and then overwrites it. -/
structure CrowdinConfig where
  files : List FileEntry
  others : List (String × String)
deriving DecidableEq

/-- Pure core of update_crowdin_config (scripts/update_catalogs.py lines 63-90):
given the repository map's keys and the loaded crowdin data, replace the files
section with the computed list and leave every other section as loaded. -/
def update_crowdin_config (keys : List String) (crowdin_data : CrowdinConfig) :
    CrowdinConfig :=
  { crowdin_data with files := computePackages keys }

/-- The value of the repository map at one package name: the url field and the
current-version-tag field of repository-map.yml. -/
structure PkgEntry where
  url : String
  current_version_tag : String
deriving DecidableEq

/-- Model of os.path.join for an absolute left path with no trailing separator
and a relative right component, the only shape the script produces. -/
def osJoin (a b : String) : String := a ++ "/" ++ b

/-- One subprocess.Popen invocation of git: the argument vector and the cwd
the script passes. -/
structure GitCmd where
  args : List String
  cwd : String
deriving DecidableEq

/-- Model of update_repo (scripts/update_catalogs.py lines 93-111) as the list
of git commands it issues, in order. mirrorExists models the
os.path.isdir(clone_path) test. Note the source passes cwd=repos_path (the
parent folder of all mirrors) to the fetch, and cwd=clone_path to the checkout. -/
def update_repo (repoRoot pkg_name url version : String) (mirrorExists : Bool) :
    List GitCmd :=
  let repos_path := osJoin repoRoot "repos"
  let clone_path := osJoin repos_path pkg_name
  (if ¬ mirrorExists then
    [{ args := ["git", "clone", url ++ ".git", pkg_name], cwd := repos_path }]
  else
    [{ args := ["git", "fetch", "origin"], cwd := repos_path }]) ++
    [{ args := ["git", "checkout", version], cwd := clone_path }]

/-- The catalog output path chosen by update_catalog
(scripts/update_catalogs.py lines 129-134): the root package writes under the
repository root, every other package under the plugins folder; the package
name is spliced in verbatim, with no hyphen normalization. -/
def catalogOutput (repoRoot pkg_name : String) : String :=
  if pkg_name = "napari" then
    osJoin (osJoin (osJoin repoRoot pkg_name) "locale") (pkg_name ++ ".pot")
  else
    osJoin (osJoin (osJoin (osJoin repoRoot "plugins") pkg_name) "locale")
      (pkg_name ++ ".pot")

/-- Model of Python's str.replace on char lists: replace each leftmost
non-overlapping occurrence of pat by rep, scanning left to right. The script
calls it as data.replace(package_repo_dir + "/", ""). -/
def replaceList (pat rep : List Char) : List Char → List Char
  | [] => []
  | c :: cs =>
    if h : pat ≠ [] ∧ pat.isPrefixOf (c :: cs) = true then
      rep ++ replaceList pat rep ((c :: cs).drop pat.length)
    else
      c :: replaceList pat rep cs
termination_by l => l.length
decreasing_by
  · simp only [List.length_drop, List.length_cons]
    have hpos : 0 < pat.length := List.length_pos.mpr h.1
    omega
  · simp

/-- The post-processing step of update_catalog (scripts/update_catalogs.py
lines 143-148): strip the mirror root path by replacing every occurrence of
package_repo_dir followed by a slash with the empty string. -/
def postprocessCatalog (package_repo_dir text : List Char) : List Char :=
  replaceList (package_repo_dir ++ ['/']) [] text

/-- One externally visible operation of the orchestrator run: writing
crowdin.yml, issuing a git command, or (re)writing a catalog file at a path
(the pybabel extraction plus the stripped rewrite of the same output file). -/
inductive Op where
  | writeCrowdin (c : CrowdinConfig)
  | git (cmd : GitCmd)
  | writeCatalog (path : String)
deriving DecidableEq

/-- Model of the script's main block (scripts/update_catalogs.py lines 155-179)
as the ordered trace of operations it performs: the repository map is loaded as
an association list, update_crowdin_config always runs first, then the argument
count selects the package scope (one known name, all names sorted, or none with
sys.exit(0) when more than one argument is given), and each selected package
gets its update_repo commands followed by its catalog write.
existingMirrors models which mirror directories are on disk at start. -/
def mainOps (data : List (String × PkgEntry)) (args : List String)
    (crowdin_data : CrowdinConfig) (existingMirrors : List String)
    (repoRoot : String) : List Op :=
  let keys := data.map Prod.fst
  let synced := update_crowdin_config keys crowdin_data
  let packages : List String :=
    match args with
    | [pkg_name] => if keys.contains pkg_name then [pkg_name] else []
    | [] => pySorted keys
    | _ => []
  Op.writeCrowdin synced ::
    packages.flatMap (fun pkg_name =>
      let entry := (data.lookup pkg_name).getD ⟨"", ""⟩
      (update_repo repoRoot pkg_name entry.url entry.current_version_tag
        (existingMirrors.contains pkg_name)).map Op.git ++
        [Op.writeCatalog (catalogOutput repoRoot pkg_name)])

/-- A babel Locale as far as the hook consumes it: the language field and the
optional territory field of the parsed locale. -/
structure BabelLocale where
  language : String
  territory : Option String
deriving DecidableEq

/-- Model of template/hooks/pre_gen_project.py as a function from the two
template variables to an optional diagnostic: some message means the hook
prints that message and exits with status 1, none means it passes. The babel
Locale.parse call is abstracted as the parse argument; none models a raised
exception, and a parse result with no territory makes the concatenation
language + "_" + territory raise, which the except branch also turns into the
invalid-locale diagnostic. -/
def pre_gen_project (parse : String → Option BabelLocale)
    (locale locale_underscore : String) : Option String :=
  if ¬ '-' ∈ locale.data then
    some ("ERROR: `locale` must be 4 letter code, like es-ES.\n" ++
      "       See http://www.lingoes.net/en/translator/langcode.htm")
  else
    match parse locale_underscore with
    | none => some ("ERROR: Locale \"" ++ locale ++ "\" is invalid!")
    | some babel_locale =>
      match babel_locale.territory with
      | none => some ("ERROR: Locale \"" ++ locale ++ "\" is invalid!")
      | some terr =>
        if babel_locale.language ++ "_" ++ terr ≠ locale_underscore then
          some ("ERROR: Locale \"" ++ locale ++ "\" is invalid!")
        else if '_' ∈ locale.data then
          some "ERROR: Locales with language variants must use `-` and not `_`"
        else if '-' ∈ locale_underscore.data then
          some "ERROR: `locale_underscore` must use `_` and not `-`"
        else
          none

/-- A concrete stand-in for babel's Locale.parse used in counterexamples: it
recognises exactly the string fr_FR, as babel would. -/
def parseDemo : String → Option BabelLocale :=
  fun s => if s = "fr_FR" then some { language := "fr", territory := some "FR" } else none

/-- Totality of the code-point lexicographic order on char lists. -/
theorem charListLe_total (a b : List Char) :
    charListLe a b = true ∨ charListLe b a = true := by
  induction a generalizing b with
  | nil => left; rfl
  | cons x xs ih =>
    cases b with
    | nil => right; rfl
    | cons y ys =>
      rcases lt_trichotomy x y with h | h | h
      · left; simp [charListLe, h]
      · subst h
        rcases ih ys with h2 | h2
        · left; simp [charListLe, h2]
        · right; simp [charListLe, h2]
      · right; simp [charListLe, h]

/-- Transitivity of the code-point lexicographic order on char lists. -/
theorem charListLe_trans (a b c : List Char) (h1 : charListLe a b = true)
    (h2 : charListLe b c = true) : charListLe a c = true := by
  induction a generalizing b c with
  | nil => rfl
  | cons x xs ih =>
    cases b with
    | nil => simp [charListLe] at h1
    | cons y ys =>
      cases c with
      | nil => simp [charListLe] at h2
      | cons z zs =>
        simp only [charListLe] at h1 h2 ⊢
        by_cases hxy : x < y
        · by_cases hyz : y < z
          · simp [lt_trans hxy hyz]
          · simp [hxy] at h1
            by_cases hyz2 : y = z
            · subst hyz2; simp [hxy]
            · simp [hyz, hyz2] at h2
        · by_cases hxy2 : x = y
          · subst hxy2
            simp [hxy] at h1
            by_cases hxz : x < z
            · simp [hxz]
            · by_cases hxz2 : x = z
              · subst hxz2
                simp [hxz] at h2 ⊢
                exact ih ys zs h1 h2
              · simp [hxz, hxz2] at h2
          · simp [hxy, hxy2] at h1

/-- Removing the one occurrence of a from a duplicate-free list shortens it by
exactly one. -/
theorem length_filter_ne {l : List String} {a : String} (hnd : l.Nodup)
    (hmem : a ∈ l) : (l.filter (fun k => k != a)).length = l.length - 1 := by
  induction l with
  | nil => cases hmem
  | cons x xs ih =>
    rcases List.nodup_cons.mp hnd with ⟨hx, hxs⟩
    by_cases hxa : x = a
    · subst hxa
      have : xs.filter (fun k => k != x) = xs :=
        List.filter_eq_self.mpr (fun b hb => by
          simp only [bne_iff_ne, ne_eq, decide_eq_true_eq]
          exact fun hbx => hx (hbx ▸ hb))
      simp [List.filter, this]
    · have hmem' : a ∈ xs := by
        rcases List.mem_cons.mp hmem with h | h
        · exact absurd h.symm hxa
        · exact h
      have hlen := ih hxs hmem'
      have hpos : 0 < xs.length := List.length_pos.mpr (List.ne_nil_of_mem hmem')
      have hfil : (x :: xs).filter (fun k => k != a) =
          x :: xs.filter (fun k => k != a) := by
        simp [List.filter_cons, hxa]
      rw [hfil, List.length_cons, List.length_cons, hlen]
      omega

/-- A successful Bool prefix test gives a prefix. -/
theorem pref_of_isPrefixOf : ∀ {p l : List Char}, p.isPrefixOf l = true → p <+: l := by
  intro p
  induction p with
  | nil => intro l _; exact ⟨l, rfl⟩
  | cons a as ih =>
    intro l h
    cases l with
    | nil => simp [List.isPrefixOf] at h
    | cons b bs =>
      simp only [List.isPrefixOf, Bool.and_eq_true, beq_iff_eq] at h
      obtain ⟨h1, h2⟩ := h
      obtain ⟨t, ht⟩ := ih h2
      exact ⟨t, by simp [h1, ht]⟩

/-- A list passes the Bool prefix test against itself followed by anything. -/
theorem isPrefixOf_append_self : ∀ (p t : List Char), p.isPrefixOf (p ++ t) = true := by
  intro p t
  induction p with
  | nil => simp [List.isPrefixOf]
  | cons a as ih => simp [List.isPrefixOf, ih]

/-- Every prefix is also contained as a contiguous segment. -/
theorem infix_of_pref {p l : List Char} (h : p <+: l) : p <:+: l := by
  obtain ⟨t, ht⟩ := h
  exact ⟨[], t, by simp [ht]⟩

/-- A text with no occurrence of the pattern is left unchanged by replaceList. -/
theorem replaceList_eq_self {pat : List Char} (rep : List Char) {t : List Char}
    (hni : ¬ pat <:+: t) : replaceList pat rep t = t := by
  induction t with
  | nil => rw [replaceList]
  | cons c cs ih =>
    rw [replaceList]
    have hcond : ¬ (pat ≠ [] ∧ pat.isPrefixOf (c :: cs) = true) := by
      rintro ⟨-, hp⟩
      exact hni (infix_of_pref (pref_of_isPrefixOf hp))
    rw [dif_neg hcond]
    have hni' : ¬ pat <:+: cs := fun hc => hni (List.infix_cons_iff.mpr (Or.inr hc))
    rw [ih hni']

/-- A text beginning with the pattern has that leading occurrence replaced. -/
theorem replaceList_append_pat (pat rep t : List Char) (hne : pat ≠ []) :
    replaceList pat rep (pat ++ t) = rep ++ replaceList pat rep t := by
  cases pat with
  | nil => exact absurd rfl hne
  | cons p ps =>
    rw [List.cons_append, replaceList]
    have hcond : ((p :: ps) ≠ [] ∧ (p :: ps).isPrefixOf (p :: (ps ++ t)) = true) := by
      refine ⟨by simp, ?_⟩
      have hp := isPrefixOf_append_self (p :: ps) t
      simpa using hp
    rw [dif_pos hcond]
    congr 1
    have hd : (p :: (ps ++ t)).drop (p :: ps).length = t := by
      have hdl := List.drop_left (p :: ps) t
      simpa using hdl
    rw [hd]

/-- C2: the claim says the fetch for an already-mirrored package runs inside
that package's mirror directory; the code instead passes the mirrors' parent
folder (repos_path) as cwd to git fetch, while the checkout does run in the
mirror. This theorem evaluates update_repo at a failing input: an existing
mirror for the package napari under repository root /repo. -/
theorem update_repo_fetch_wrong_cwd :
    update_repo "/repo" "napari" "https://github.com/napari/napari" "v0.4.9" true =
      [{ args := ["git", "fetch", "origin"], cwd := "/repo/repos" },
       { args := ["git", "checkout", "v0.4.9"], cwd := "/repo/repos/napari" }] ∧
    "/repo/repos" ≠ "/repo/repos/napari" := by
  exact ⟨rfl, by decide⟩

/-- C4: the crowdin files entry for a hyphenated package name uses the
underscore-normalized name, but the catalog output path written by
update_catalog splices in the raw hyphenated name, so the two disagree: the
synced configuration points at a path the extractor never writes. -/
theorem catalog_path_not_normalized :
    (pluginEntry "plugin-a").source = "/plugins/plugin_a/locale/plugin_a.pot" ∧
    catalogOutput "/repo" "plugin-a" = "/repo/plugins/plugin-a/locale/plugin-a.pot" := by
  exact ⟨rfl, rfl⟩

/-- C7: running the synchronizer twice with an unchanged repository map gives
identical files sections: the second run reads back the first run's output and
replaces its files section with the same recomputed list. -/
theorem sync_idempotent_files (keys : List String) (crowdin_data : CrowdinConfig) :
    (update_crowdin_config keys (update_crowdin_config keys crowdin_data)).files =
      (update_crowdin_config keys crowdin_data).files := rfl

/-- C8: the synchronizer rewrites only the files section; every other section
of the crowdin configuration is written back exactly as loaded. -/
theorem sync_preserves_other_sections (keys : List String) (crowdin_data : CrowdinConfig) :
    (update_crowdin_config keys crowdin_data).others = crowdin_data.others := rfl

/-- C10: the synchronizer's output does not depend on the prior files section:
two loaded configurations agreeing on every other section produce identical
written configurations for the same repository map. -/
theorem sync_independent_of_prior_files (keys : List String)
    (c1 c2 : CrowdinConfig) (h : c1.others = c2.others) :
    update_crowdin_config keys c1 = update_crowdin_config keys c2 := by
  cases c1; cases c2; simp_all [update_crowdin_config]

/-- Witness for sync_independent_of_prior_files at two configs with different
files sections and equal remaining sections. -/
theorem sync_independent_of_prior_files_w :
    (CrowdinConfig.others ⟨[napariEntry], [("project_id", "1")]⟩ =
      CrowdinConfig.others ⟨[], [("project_id", "1")]⟩) ∧
    update_crowdin_config ["napari"] ⟨[napariEntry], [("project_id", "1")]⟩ =
      update_crowdin_config ["napari"] ⟨[], [("project_id", "1")]⟩ :=
  ⟨rfl, sync_independent_of_prior_files ["napari"] _ _ rfl⟩

/-- C6 counterexample: a raw extractor output holding the mirror root path not
followed by a slash keeps that occurrence after post-processing, so the
catalog text still contains the mirror's absolute root path as a substring. -/
theorem catalog_strip_cex :
    ("/repo/repos/napari".data) <:+:
      postprocessCatalog ("/repo/repos/napari".data) ("#: /repo/repos/napari\n".data) := by
  have hni : ¬ ("/repo/repos/napari".data ++ ['/']) <:+:
      ("#: /repo/repos/napari\n".data) := by decide
  rw [postprocessCatalog, replaceList_eq_self [] hni]
  decide

/-- C6 amended: the post-processing deletes every leftmost non-overlapping
occurrence of the mirror root followed by a slash; a file reference that embeds
the root as the prefix root-slash is reduced to its mirror-relative remainder,
which is then free of the root path, while a bare occurrence of the root
without the trailing slash survives (see the counterexample). -/
theorem catalog_strip_ref (package_repo_dir rest : List Char)
    (h1 : ¬ (package_repo_dir ++ ['/']) <:+: rest)
    (h2 : ¬ package_repo_dir <:+: rest) :
    postprocessCatalog package_repo_dir (package_repo_dir ++ ['/'] ++ rest) = rest ∧
    ¬ package_repo_dir <:+:
      postprocessCatalog package_repo_dir (package_repo_dir ++ ['/'] ++ rest) := by
  have hstep : postprocessCatalog package_repo_dir
      (package_repo_dir ++ ['/'] ++ rest) = rest := by
    rw [postprocessCatalog, replaceList_append_pat _ _ _ (by simp),
      replaceList_eq_self [] h1, List.nil_append]
  refine ⟨hstep, ?_⟩
  rw [hstep]
  exact h2

/-- Witness for catalog_strip_ref on a concrete mirror root and a concrete
mirror-relative file reference. -/
theorem catalog_strip_ref_w :
    (¬ ("/repo/repos/napari".data ++ ['/']) <:+: ("src/app.py:12".data) ∧
     ¬ ("/repo/repos/napari".data) <:+: ("src/app.py:12".data)) ∧
    (postprocessCatalog ("/repo/repos/napari".data)
        ("/repo/repos/napari".data ++ ['/'] ++ "src/app.py:12".data) =
          "src/app.py:12".data ∧
     ¬ ("/repo/repos/napari".data) <:+:
        postprocessCatalog ("/repo/repos/napari".data)
          ("/repo/repos/napari".data ++ ['/'] ++ "src/app.py:12".data)) :=
  ⟨⟨by decide, by decide⟩, catalog_strip_ref _ _ (by decide) (by decide)⟩

/-- C1 counterexample: a repository map that lacks the root package still gets
the hard-coded napari entry, so the files list is longer than the map. -/
theorem crowdin_files_count_cex :
    (computePackages ["plugin-a"]).length ≠ (["plugin-a"] : List String).length := by
  decide

/-- C1 amended: for a repository map with distinct package names that contains
the root package napari, the synchronizer's files list has exactly one entry
per package, the napari entry first, and the remaining entries follow in
code-point lexicographic order of package name. -/
theorem crowdin_files_shape (keys : List String) (hnd : keys.Nodup)
    (hmem : "napari" ∈ keys) :
    (computePackages keys).length = keys.length ∧
    (computePackages keys).head? = some napariEntry ∧
    ∃ rest : List String,
      rest.Perm (keys.filter (fun k => k != "napari")) ∧
      List.Sorted strLe rest ∧
      (computePackages keys).tail = rest.map pluginEntry := by
  haveI : IsTotal String strLe := ⟨fun a b => charListLe_total a.data b.data⟩
  haveI : IsTrans String strLe := ⟨fun a b c => charListLe_trans a.data b.data c.data⟩
  refine ⟨?_, rfl, (pySorted keys).filter (fun k => k != "napari"), ?_, ?_, rfl⟩
  · have hperm : (pySorted keys).Perm keys := List.perm_insertionSort strLe keys
    have hpf := hperm.filter (fun k => k != "napari")
    have hlen := hpf.length_eq
    have hflen := length_filter_ne hnd hmem
    have hpos : 0 < keys.length := List.length_pos.mpr (List.ne_nil_of_mem hmem)
    simp only [computePackages, List.length_cons, List.length_map]
    omega
  · exact (List.perm_insertionSort strLe keys).filter _
  · exact (List.sorted_insertionSort strLe keys).filter _

/-- Witness for crowdin_files_shape on a concrete two-package map. -/
theorem crowdin_files_shape_w :
    ((["plugin-a", "napari"] : List String).Nodup ∧
      "napari" ∈ (["plugin-a", "napari"] : List String)) ∧
    ((computePackages ["plugin-a", "napari"]).length =
        (["plugin-a", "napari"] : List String).length ∧
     (computePackages ["plugin-a", "napari"]).head? = some napariEntry ∧
     ∃ rest : List String,
       rest.Perm ((["plugin-a", "napari"] : List String).filter (fun k => k != "napari")) ∧
       List.Sorted strLe rest ∧
       (computePackages ["plugin-a", "napari"]).tail = rest.map pluginEntry) :=
  ⟨⟨by decide, by decide⟩, crowdin_files_shape _ (by decide) (by decide)⟩

/-- C3 counterexample: invoked with two arguments the script still runs the
synchronizer before the early exit, so the crowdin file is rewritten; starting
from a crowdin file with an empty files section the written content differs. -/
theorem orchestrator_extra_args_cex :
    mainOps [("napari", ⟨"https://github.com/napari/napari", "v0.4.9"⟩)] ["a", "b"]
        ⟨[], []⟩ [] "/repo" =
      [Op.writeCrowdin ⟨computePackages ["napari"], []⟩] ∧
    (⟨computePackages ["napari"], []⟩ : CrowdinConfig) ≠ (⟨[], []⟩ : CrowdinConfig) := by
  exact ⟨rfl, by decide⟩

/-- C3 amended: with two or more arguments the run exits successfully after
performing exactly one filesystem mutation, the synchronizer's rewrite of the
crowdin configuration; no git command is issued and no mirror or catalog is
created or modified. -/
theorem orchestrator_extra_args_frame (data : List (String × PkgEntry))
    (args : List String) (crowdin_data : CrowdinConfig)
    (existingMirrors : List String) (repoRoot : String) (h : 2 ≤ args.length) :
    mainOps data args crowdin_data existingMirrors repoRoot =
      [Op.writeCrowdin (update_crowdin_config (data.map Prod.fst) crowdin_data)] := by
  rcases args with _ | ⟨a, rest1⟩
  · simp at h
  · rcases rest1 with _ | ⟨b, rest⟩
    · simp at h
    · simp [mainOps]

/-- Witness for orchestrator_extra_args_frame at a concrete two-argument call. -/
theorem orchestrator_extra_args_frame_w :
    2 ≤ (["a", "b"] : List String).length ∧
    mainOps [] ["a", "b"] ⟨[], []⟩ [] "/repo" =
      [Op.writeCrowdin
        (update_crowdin_config (([] : List (String × PkgEntry)).map Prod.fst) ⟨[], []⟩)] :=
  ⟨by decide, orchestrator_extra_args_frame [] ["a", "b"] ⟨[], []⟩ [] "/repo" (by decide)⟩

/-- C9: with exactly one argument naming a key of the repository map, the run
syncs the configuration and then processes exactly that package (its git
commands followed by its catalog write); with an unknown name the run still
syncs the configuration but issues no git command and writes no catalog. -/
theorem orchestrator_single_arg (data : List (String × PkgEntry)) (pkg_name : String)
    (crowdin_data : CrowdinConfig) (existingMirrors : List String) (repoRoot : String) :
    ((data.map Prod.fst).contains pkg_name = true →
      mainOps data [pkg_name] crowdin_data existingMirrors repoRoot =
        Op.writeCrowdin (update_crowdin_config (data.map Prod.fst) crowdin_data) ::
          ((update_repo repoRoot pkg_name ((data.lookup pkg_name).getD ⟨"", ""⟩).url
              ((data.lookup pkg_name).getD ⟨"", ""⟩).current_version_tag
              (existingMirrors.contains pkg_name)).map Op.git ++
            [Op.writeCatalog (catalogOutput repoRoot pkg_name)])) ∧
    ((data.map Prod.fst).contains pkg_name = false →
      mainOps data [pkg_name] crowdin_data existingMirrors repoRoot =
        [Op.writeCrowdin (update_crowdin_config (data.map Prod.fst) crowdin_data)]) := by
  constructor <;> intro h <;>
    (simp only [mainOps]; rw [h]; simp)

/-- Witness for orchestrator_single_arg: a one-package map, queried once with
its own key and once with an unknown name. -/
theorem orchestrator_single_arg_w :
    (([("napari", (⟨"u", "v1"⟩ : PkgEntry))].map Prod.fst).contains "napari" = true ∧
      mainOps [("napari", ⟨"u", "v1"⟩)] ["napari"] ⟨[], []⟩ [] "/repo" =
        Op.writeCrowdin (update_crowdin_config
            ([("napari", (⟨"u", "v1"⟩ : PkgEntry))].map Prod.fst) ⟨[], []⟩) ::
          ((update_repo "/repo" "napari"
              (([("napari", (⟨"u", "v1"⟩ : PkgEntry))].lookup "napari").getD ⟨"", ""⟩).url
              (([("napari", (⟨"u", "v1"⟩ : PkgEntry))].lookup "napari").getD
                ⟨"", ""⟩).current_version_tag
              (([] : List String).contains "napari")).map Op.git ++
            [Op.writeCatalog (catalogOutput "/repo" "napari")])) ∧
    (([("napari", (⟨"u", "v1"⟩ : PkgEntry))].map Prod.fst).contains "zzz" = false ∧
      mainOps [("napari", ⟨"u", "v1"⟩)] ["zzz"] ⟨[], []⟩ [] "/repo" =
        [Op.writeCrowdin (update_crowdin_config
            ([("napari", (⟨"u", "v1"⟩ : PkgEntry))].map Prod.fst) ⟨[], []⟩)]) :=
  ⟨⟨by decide, (orchestrator_single_arg _ _ _ _ _).1 (by decide)⟩,
   ⟨by decide, (orchestrator_single_arg _ _ _ _ _).2 (by decide)⟩⟩

/-- C5 counterexample: the hook never compares the underscore form with the
hyphenated form; es-ES together with fr_FR passes every check although the
underscore form does not denote the same locale as the hyphenated form. -/
theorem hook_same_locale_cex :
    pre_gen_project parseDemo "es-ES" "fr_FR" = none ∧
    pyReplaceChar '-' '_' "es-ES" ≠ "fr_FR" := by
  exact ⟨by decide, by decide⟩

/-- C5 amended: the hook exits nonzero with a diagnostic exactly when one of
the five conditions holds: no hyphen in the first form, a locale-library parse
failure on the second form (including a parse result without a territory,
whose concatenation raises), a second form that is not its own parsed
normalization, an underscore in the first form, or a hyphen in the second
form. The consistency validated is only this self-normalization of the
underscore form; the two forms are never checked against each other. -/
theorem hook_rejects_iff (parse : String → Option BabelLocale)
    (locale locale_underscore : String) :
    pre_gen_project parse locale locale_underscore ≠ none ↔
      (¬ '-' ∈ locale.data ∨
       parse locale_underscore = none ∨
       (∃ babel_locale, parse locale_underscore = some babel_locale ∧
          babel_locale.territory = none) ∨
       (∃ babel_locale terr, parse locale_underscore = some babel_locale ∧
          babel_locale.territory = some terr ∧
          babel_locale.language ++ "_" ++ terr ≠ locale_underscore) ∨
       '_' ∈ locale.data ∨
       '-' ∈ locale_underscore.data) := by
  unfold pre_gen_project
  by_cases hd : '-' ∈ locale.data
  · rw [if_neg (not_not_intro hd)]
    cases hpp : parse locale_underscore with
    | none =>
      dsimp only
      constructor
      · intro _; exact Or.inr (Or.inl rfl)
      · intro _; exact Option.some_ne_none _
    | some bl =>
      dsimp only
      cases ht : bl.territory with
      | none =>
        dsimp only
        constructor
        · intro _; exact Or.inr (Or.inr (Or.inl ⟨bl, rfl, ht⟩))
        · intro _; exact Option.some_ne_none _
      | some terr =>
        dsimp only
        by_cases hne : bl.language ++ "_" ++ terr ≠ locale_underscore
        · rw [if_pos hne]
          constructor
          · intro _; exact Or.inr (Or.inr (Or.inr (Or.inl ⟨bl, terr, rfl, ht, hne⟩)))
          · intro _; exact Option.some_ne_none _
        · rw [if_neg hne]
          push_neg at hne
          by_cases hu : '_' ∈ locale.data
          · rw [if_pos hu]
            constructor
            · intro _; exact Or.inr (Or.inr (Or.inr (Or.inr (Or.inl hu))))
            · intro _; exact Option.some_ne_none _
          · rw [if_neg hu]
            by_cases hlu : '-' ∈ locale_underscore.data
            · rw [if_pos hlu]
              constructor
              · intro _; exact Or.inr (Or.inr (Or.inr (Or.inr (Or.inr hlu))))
              · intro _; exact Option.some_ne_none _
            · rw [if_neg hlu]
              constructor
              · intro hfalse; exact absurd rfl hfalse
              · rintro (hc | hc | ⟨bl2, hp2, ht2⟩ | ⟨bl2, t2, hp2, ht2, hne2⟩ | hc | hc)
                · exact absurd hd hc
                · exact Option.noConfusion hc
                · injection hp2 with hbl
                  subst hbl
                  rw [ht] at ht2
                  exact Option.noConfusion ht2
                · injection hp2 with hbl
                  subst hbl
                  rw [ht] at ht2
                  injection ht2 with hterr
                  subst hterr
                  exact (hne2 hne).elim
                · exact (hu hc).elim
                · exact (hlu hc).elim
  · rw [if_pos hd]
    constructor
    · intro _; exact Or.inl hd
    · intro _; exact Option.some_ne_none _
